import Mathlib

/-!
Verification of the miniflux-js client core (file src/miniflux client,
the published MinifluxClient class).  The definitions below are a shallow
embedding of the TypeScript source: the constructor, the request
primitive, the error-message extraction, the filter/query encoding and
the derived-URL helpers.  Strings are Lean strings, machine numbers are
Nat/Int, fallible operations return Except/Option.
-/

namespace Miniflux

/-- The two authentication modes of MinifluxConfig.authType; the field is
optional in the source, which we model with Option AuthType. -/
inductive AuthType
  | api_key
  | password
deriving DecidableEq, Repr

/-- Embeds the MinifluxConfig interface: baseURL is a plain string, the
remaining fields are optional. -/
structure MinifluxConfig where
  baseURL : String
  apiKey : Option String := none
  username : Option String := none
  password : Option String := none
  authType : Option AuthType := none
deriving DecidableEq, Repr

/-- JavaScript truthiness of an optional string field: undefined and the
empty string are falsy, every other string is truthy. -/
def present (o : Option String) : Bool :=
  match o with
  | none => false
  | some s => !s.isEmpty

/-- Embeds the constructor line
baseURL.replace with the regex of one trailing slash and empty
replacement: removes exactly one trailing path separator when there is
one, and leaves every other string unchanged. -/
def stripTrailingSlash (s : String) : String :=
  match s.toList.reverse with
  | '/' :: rest => String.mk rest.reverse
  | _ => s

/-- UTF-8 byte sequence of one character, as plain naturals. -/
def utf8Bytes (c : Char) : List Nat :=
  let n := c.toNat
  if n < 128 then [n]
  else if n < 2048 then [192 + n / 64, 128 + n % 64]
  else if n < 65536 then [224 + n / 4096, 128 + (n / 64) % 64, 128 + n % 64]
  else [240 + n / 262144, 128 + (n / 4096) % 64, 128 + (n / 64) % 64, 128 + n % 64]

/-- UTF-8 bytes of a string. -/
def strBytes (s : String) : List Nat :=
  (s.toList.map utf8Bytes).flatten

/-- The base64 alphabet. -/
def base64Chars : List Char :=
  "ABCDEFGHIJKLMNOPQRSTUVWXYZabcdefghijklmnopqrstuvwxyz0123456789+/".toList

/-- Character of one 6-bit group. -/
def b64Char (n : Nat) : Char := base64Chars.getD n 'A'

/-- Standard base64 encoding of a byte list, with padding, as produced
by the JavaScript btoa builtin. -/
def base64Encode : List Nat → String
  | [] => ""
  | [a] => String.mk [b64Char (a / 4), b64Char (a % 4 * 16)] ++ "=="
  | [a, b] =>
      String.mk [b64Char (a / 4), b64Char (a % 4 * 16 + b / 16),
        b64Char (b % 16 * 4)] ++ "="
  | a :: b :: c :: rest =>
      String.mk [b64Char (a / 4), b64Char (a % 4 * 16 + b / 16),
        b64Char (b % 16 * 4 + c / 64), b64Char (c % 64)] ++ base64Encode rest

/-- Embeds the btoa builtin used for the Basic authorization payload.
For the ASCII credentials the source deals in, the UTF-8 bytes coincide
with the Latin-1 code units btoa consumes. -/
def btoa (s : String) : String := base64Encode (strBytes s)

/-- The three default headers installed by the constructor. -/
def defaultHeaders : List (String × String) :=
  [("User-Agent", "Miniflux JS Client"),
   ("Content-Type", "application/json"),
   ("Accept", "application/json")]

/-- Headers.set: replaces the value of an existing header name, or
appends the pair when the name is not present yet. -/
def headersSet (hs : List (String × String)) (k v : String) :
    List (String × String) :=
  if hs.any (fun p => p.1 == k) then
    hs.map (fun p => if p.1 == k then (k, v) else p)
  else hs ++ [(k, v)]

/-- The client state established by the constructor: normalized base URL,
the stored credential fields and the header list built once. -/
structure MinifluxClient where
  baseUrl : String
  apiKey : Option String
  username : Option String
  password : Option String
  headers : List (String × String)
deriving DecidableEq, Repr

/-- Embeds the MinifluxClient constructor: the four presence checks in
source order (each throw becomes a distinct Except.error), then the
base-URL normalization, then the header list with the mode-selected
authentication header.  The function is pure: no network activity is
even expressible. -/
def mkClient (config : MinifluxConfig) : Except String MinifluxClient :=
  if config.baseURL.isEmpty then .error "Miniflux base URL is required"
  else if config.authType = some .api_key ∧ present config.apiKey = false then
    .error "Miniflux API key is required"
  else if config.authType = some .password ∧ present config.username = false then
    .error "Miniflux username is required"
  else if config.authType = some .password ∧ present config.password = false then
    .error "Miniflux password is required"
  else
    .ok { baseUrl := stripTrailingSlash config.baseURL
          apiKey := config.apiKey
          username := config.username
          password := config.password
          headers :=
            if config.authType = some .api_key ∧ present config.apiKey = true then
              headersSet defaultHeaders "X-Auth-Token" (config.apiKey.getD "")
            else if config.authType = some .password ∧
                present config.username = true ∧ present config.password = true then
              headersSet defaultHeaders "Authorization"
                ("Basic " ++
                  btoa (config.username.getD "" ++ ":" ++ config.password.getD ""))
            else defaultHeaders }

/-! ### JSON values and a model of the JSON.parse builtin -/

/-- JSON values.  Numbers keep their source lexeme: the request core
never computes with them, it only tests truthiness and stringifies. -/
inductive Json
  | jnull
  | jbool (b : Bool)
  | jnum (lexeme : String)
  | jstr (s : String)
  | jarr (elems : List Json)
  | jobj (fields : List (String × Json))

/-- Skip JSON whitespace (space, tab, line feed, carriage return). -/
def skipWs : List Char → List Char
  | c :: rest =>
      if c = ' ' ∨ c = '\t' ∨ c = '\n' ∨ c = '\r' then skipWs rest else c :: rest
  | [] => []

/-- Hex digit value. -/
def hexVal (c : Char) : Option Nat :=
  if '0' ≤ c ∧ c ≤ '9' then some (c.toNat - '0'.toNat)
  else if 'a' ≤ c ∧ c ≤ 'f' then some (c.toNat - 'a'.toNat + 10)
  else if 'A' ≤ c ∧ c ≤ 'F' then some (c.toNat - 'A'.toNat + 10)
  else none

/-- Body of a JSON string literal, after the opening quote: handles the
standard escapes and rejects raw control characters, like JSON.parse. -/
def parseStringBody (acc : List Char) : List Char → Option (String × List Char)
  | [] => none
  | '"' :: rest => some (String.mk acc.reverse, rest)
  | '\\' :: rest =>
      match rest with
      | '"' :: r => parseStringBody ('"' :: acc) r
      | '\\' :: r => parseStringBody ('\\' :: acc) r
      | '/' :: r => parseStringBody ('/' :: acc) r
      | 'b' :: r => parseStringBody ('\x08' :: acc) r
      | 'f' :: r => parseStringBody ('\x0c' :: acc) r
      | 'n' :: r => parseStringBody ('\n' :: acc) r
      | 'r' :: r => parseStringBody ('\r' :: acc) r
      | 't' :: r => parseStringBody ('\t' :: acc) r
      | 'u' :: h1 :: h2 :: h3 :: h4 :: r =>
          match hexVal h1, hexVal h2, hexVal h3, hexVal h4 with
          | some a, some b, some c, some d =>
              parseStringBody (Char.ofNat (a * 4096 + b * 256 + c * 16 + d) :: acc) r
          | _, _, _, _ => none
      | _ => none
  | c :: rest =>
      if c.toNat < 32 then none else parseStringBody (c :: acc) rest

/-- Characters that can occur in a JSON number lexeme. -/
def numChar (c : Char) : Bool :=
  c.isDigit || c = '-' || c = '+' || c = '.' || c = 'e' || c = 'E'

/-- Exponent part of the JSON number grammar (possibly empty). -/
def validExp (l : List Char) : Bool :=
  match l with
  | [] => true
  | e :: r =>
      if e = 'e' ∨ e = 'E' then
        let r1 := match r with
          | '+' :: r2 => r2
          | '-' :: r2 => r2
          | _ => r
        match r1 with
        | c :: _ => c.isDigit && (r1.dropWhile Char.isDigit).isEmpty
        | [] => false
      else false

/-- Fraction-and-exponent part of the JSON number grammar. -/
def validFrac (l : List Char) : Bool :=
  match l with
  | '.' :: r =>
      match r with
      | c :: _ => c.isDigit && validExp (r.dropWhile Char.isDigit)
      | [] => false
  | _ => validExp l

/-- The JSON number grammar: optional minus, integer part without a
leading zero, optional fraction, optional exponent. -/
def validNumber (l : List Char) : Bool :=
  let l1 := match l with
    | '-' :: r => r
    | _ => l
  match l1 with
  | [] => false
  | '0' :: r => validFrac r
  | c :: _ => c.isDigit && validFrac (l1.dropWhile Char.isDigit)

/-- Duplicate object keys: like a JavaScript object literal, a repeated
key keeps its first position but takes the latest value. -/
def insertKey (fields : List (String × Json)) (k : String) (v : Json) :
    List (String × Json) :=
  if fields.any (fun p => p.1 == k) then
    fields.map (fun p => if p.1 == k then (k, v) else p)
  else fields ++ [(k, v)]

mutual

/-- Fuel-indexed JSON value parser modelling JSON.parse; returns the
value and the unconsumed input.  The fuel only bounds nesting and member
counts and is chosen generously by parseJson. -/
def parseValue : Nat → List Char → Option (Json × List Char)
  | 0, _ => none
  | fuel + 1, l =>
      match skipWs l with
      | '{' :: rest =>
          match skipWs rest with
          | '}' :: r => some (.jobj [], r)
          | l2 => parseMembers fuel l2 []
      | '[' :: rest =>
          match skipWs rest with
          | ']' :: r => some (.jarr [], r)
          | l2 => parseElems fuel l2 []
      | '"' :: rest =>
          (parseStringBody [] rest).map (fun p => (Json.jstr p.1, p.2))
      | 't' :: 'r' :: 'u' :: 'e' :: rest => some (.jbool true, rest)
      | 'f' :: 'a' :: 'l' :: 's' :: 'e' :: rest => some (.jbool false, rest)
      | 'n' :: 'u' :: 'l' :: 'l' :: rest => some (.jnull, rest)
      | l1 =>
          let lex := l1.takeWhile numChar
          if lex ≠ [] ∧ validNumber lex then
            some (.jnum (String.mk lex), l1.dropWhile numChar)
          else none

/-- Members of a JSON object, positioned at a key. -/
def parseMembers : Nat → List Char → List (String × Json) →
    Option (Json × List Char)
  | 0, _, _ => none
  | fuel + 1, l, acc =>
      match skipWs l with
      | '"' :: rest =>
          match parseStringBody [] rest with
          | some (k, r1) =>
              match skipWs r1 with
              | ':' :: r2 =>
                  match parseValue fuel r2 with
                  | some (v, r3) =>
                      match skipWs r3 with
                      | ',' :: r4 => parseMembers fuel r4 (insertKey acc k v)
                      | '}' :: r4 => some (.jobj (insertKey acc k v), r4)
                      | _ => none
                  | none => none
              | _ => none
          | none => none
      | _ => none

/-- Elements of a JSON array, positioned at a value. -/
def parseElems : Nat → List Char → List Json → Option (Json × List Char)
  | 0, _, _ => none
  | fuel + 1, l, acc =>
      match parseValue fuel l with
      | some (v, r1) =>
          match skipWs r1 with
          | ',' :: r2 => parseElems fuel r2 (acc ++ [v])
          | ']' :: r2 => some (.jarr (acc ++ [v]), r2)
          | _ => none
      | none => none

end

/-- Model of JSON.parse: parse one value and require only trailing
whitespace after it; none models the thrown SyntaxError. -/
def parseJson (text : String) : Option Json :=
  match parseValue (text.length * 2 + 4) text.toList with
  | some (v, rest) => if (skipWs rest).isEmpty then some v else none
  | none => none

/-- JavaScript truthiness of a JSON value: false, a zero number, the
empty string and null are falsy; arrays and objects are always truthy. -/
def jtruthy : Json → Bool
  | .jnull => false
  | .jbool b => b
  | .jnum lex =>
      !((lex.toList.filter Char.isDigit).all (fun c => c = '0'))
  | .jstr s => !s.isEmpty
  | .jarr _ => true
  | .jobj _ => true

/-- Template-literal stringification of the values that can reach the
error message: strings pass through unchanged (the only case the claims
exercise); the other forms follow the JavaScript conversions, with the
number case approximated by its lexeme. -/
def jsToString : Json → String
  | .jnull => "null"
  | .jbool b => if b then "true" else "false"
  | .jnum lex => lex
  | .jstr s => s
  | .jarr _ => ""
  | .jobj _ => "[object Object]"

/-- Property access on the parsed error body, first match in field
order (insertKey already resolved duplicates). -/
def jlookup (fields : List (String × Json)) (k : String) : Option Json :=
  (fields.find? (fun p => p.1 == k)).map (fun p => p.2)

/-! ### The request primitive -/

/-- Embeds the error branch of request: read the body as text, try
JSON.parse; on success read the error_message property (a TypeError on a
null receiver lands in the same catch as a parse failure), defaulting
falsy values to the fixed message; on failure fall back to the raw text
or, when it is empty, to the fixed placeholder. -/
def errorMessageFrom (text : String) (parsed : Option Json) : String :=
  match parsed with
  | some (.jobj fields) =>
      match jlookup fields "error_message" with
      | some v => if jtruthy v then jsToString v else "Unknown error"
      | none => "Unknown error"
  | some .jnull => if text.isEmpty then "Failed to parse error response" else text
  | some _ => "Unknown error"
  | none => if text.isEmpty then "Failed to parse error response" else text

/-- The error message of one response body text. -/
def errorMessageOf (text : String) : String :=
  errorMessageFrom text (parseJson text)

/-- One HTTP response as the request primitive observes it: the status
code and the body text. -/
structure HttpResponse where
  status : Nat
  body : String
deriving DecidableEq, Repr

/-- The ok getter of a fetch Response: status in the 200 to 299 range. -/
def respOk (r : HttpResponse) : Bool :=
  200 ≤ r.status && r.status ≤ 299

/-- Outcome of the request primitive.  jsonSuccess carries the body that
response.json will decode, textSuccess the raw text of response.text,
emptySuccess the empty object literal, failure the thrown Error message. -/
inductive ReqResult
  | emptySuccess
  | jsonSuccess (body : String)
  | textSuccess (body : String)
  | failure (message : String)
deriving DecidableEq, Repr

/-- Embeds the status classification of MinifluxClient.request: 204
first, then 200 or 201 split on the isJson flag, then the not-ok branch
building the error message, and the final fall-through returning the
empty object for the remaining (2xx) statuses. -/
def request (resp : HttpResponse) (isJson : Bool) : ReqResult :=
  if resp.status = 204 then .emptySuccess
  else if resp.status = 201 ∨ resp.status = 200 then
    if isJson then .jsonSuccess resp.body else .textSuccess resp.body
  else if respOk resp = false then .failure (errorMessageOf resp.body)
  else .emptySuccess

/-- The caller-supplied fetch options (RequestInit): the request methods
of the client set at most the method, headers and body fields. -/
structure RequestInit where
  method : Option String := none
  headers : Option (List (String × String)) := none
  body : Option String := none
deriving DecidableEq, Repr

/-- Embeds the object built at the fetch call site: spread the
caller-supplied options first, then overwrite the headers field with the
client's header list, so per-call headers can never survive. -/
def spreadWithHeaders (options : RequestInit) (hs : List (String × String)) :
    RequestInit :=
  { method := options.method, body := options.body, headers := some hs }

/-- The URL of the fetch call: plain concatenation of the normalized
base URL and the endpoint path. -/
def requestUrl (client : MinifluxClient) (path : String) : String :=
  client.baseUrl ++ path

/-- The full fetch argument pair built by request for a path and
per-call options. -/
def fetchArgs (client : MinifluxClient) (path : String) (options : RequestInit) :
    String × RequestInit :=
  (requestUrl client path, spreadWithHeaders options client.headers)

/-! ### Filter and query-string encoding -/

/-- A scalar filter value before stringification. -/
inductive Scalar
  | str (s : String)
  | num (n : Int)
  | bool (b : Bool)
deriving DecidableEq, Repr

/-- The toString conversion applied to each appended value: strings pass
through, numbers print in decimal, booleans as true or false. -/
def Scalar.toText : Scalar → String
  | .str s => s
  | .num n => toString n
  | .bool b => if b then "true" else "false"

/-- One property of the filter object as Object.entries sees it: absent
(undefined, skipped), a scalar, or an array appended element-wise. -/
inductive FieldVal
  | absent
  | one (s : Scalar)
  | many (xs : List Scalar)
deriving DecidableEq, Repr

/-- Embeds the Filter interface, every field optional. -/
structure Filter where
  status : Option (List String) := none
  offset : Option Int := none
  limit : Option Int := none
  order : Option String := none
  direction : Option String := none
  before : Option Int := none
  after : Option Int := none
  published_before : Option Int := none
  published_after : Option Int := none
  changed_before : Option Int := none
  changed_after : Option Int := none
  before_entry_id : Option Int := none
  after_entry_id : Option Int := none
  starred : Option Bool := none
  search : Option String := none
  category_id : Option Int := none
deriving DecidableEq, Repr

/-- One optional scalar as a FieldVal. -/
def optField (o : Option Scalar) : FieldVal :=
  match o with
  | none => .absent
  | some s => .one s

/-- Object.entries of a filter: the key and value of every property in
the declaration order of the Filter interface. -/
def fieldsOf (f : Filter) : List (String × FieldVal) :=
  [("status", match f.status with
      | none => .absent
      | some xs => .many (xs.map Scalar.str)),
   ("offset", optField (f.offset.map Scalar.num)),
   ("limit", optField (f.limit.map Scalar.num)),
   ("order", optField (f.order.map Scalar.str)),
   ("direction", optField (f.direction.map Scalar.str)),
   ("before", optField (f.before.map Scalar.num)),
   ("after", optField (f.after.map Scalar.num)),
   ("published_before", optField (f.published_before.map Scalar.num)),
   ("published_after", optField (f.published_after.map Scalar.num)),
   ("changed_before", optField (f.changed_before.map Scalar.num)),
   ("changed_after", optField (f.changed_after.map Scalar.num)),
   ("before_entry_id", optField (f.before_entry_id.map Scalar.num)),
   ("after_entry_id", optField (f.after_entry_id.map Scalar.num)),
   ("starred", optField (f.starred.map Scalar.bool)),
   ("search", optField (f.search.map Scalar.str)),
   ("category_id", optField (f.category_id.map Scalar.num))]

/-- The parameter pairs one property contributes: an undefined value is
skipped, an array appends one pair per element in order, a scalar
appends a single pair. -/
def fieldParams : String × FieldVal → List (String × String)
  | (_, .absent) => []
  | (k, .one s) => [(k, s.toText)]
  | (k, .many xs) => xs.map (fun x => (k, x.toText))

/-- The URLSearchParams accumulation of the forEach loop over
Object.entries of the filter. -/
def buildParams (fields : List (String × FieldVal)) : List (String × String) :=
  fields.foldl (fun acc kv => acc ++ fieldParams kv) []

/-- Bytes that stay literal in application/x-www-form-urlencoded
output: ASCII alphanumerics and asterisk, minus, period, underscore. -/
def unreservedByte (b : Nat) : Bool :=
  (48 ≤ b && b ≤ 57) || (65 ≤ b && b ≤ 90) || (97 ≤ b && b ≤ 122) ||
    b = 42 || b = 45 || b = 46 || b = 95

/-- Uppercase hex digit. -/
def hexDigit (n : Nat) : Char :=
  "0123456789ABCDEF".toList.getD n '0'

/-- Percent-escape of one byte: space becomes plus, unreserved bytes
stay, everything else is percent-encoded. -/
def encodeByte (b : Nat) : String :=
  if b = 32 then "+"
  else if unreservedByte b then String.mk [Char.ofNat b]
  else String.mk ['%', hexDigit (b / 16), hexDigit (b % 16)]

/-- The application/x-www-form-urlencoded escaping URLSearchParams
applies to every key and value, over the UTF-8 bytes. -/
def formEncode (s : String) : String :=
  String.join ((strBytes s).map encodeByte)

/-- URLSearchParams.toString: ampersand-separated key=value pairs, both
sides escaped. -/
def paramsToString (ps : List (String × String)) : String :=
  String.intercalate "&" (ps.map (fun p => formEncode p.1 ++ "=" ++ formEncode p.2))

/-- Embeds the path built by getEntries: the query string of the encoded
filter, prefixed with a question mark only when it is non-empty. -/
def getEntriesPath (filter : Option Filter) : String :=
  let params := match filter with
    | none => []
    | some f => buildParams (fieldsOf f)
  let query := paramsToString params
  "/v1/entries" ++ (if query.isEmpty then "" else "?" ++ query)

/-- The URLSearchParams content built by searchEntries: the search text,
then the limit when it is truthy (a zero limit is falsy and skipped). -/
def searchParams (query : String) (limit : Option Int) : List (String × String) :=
  [("search", query)] ++
    (match limit with
     | none => []
     | some n => if n = 0 then [] else [("limit", toString n)])

/-- Embeds the path built by searchEntries, exactly as the template
literal writes it: a literal search= prefix, then the whole encoded
parameter list, then a stray closing brace. -/
def searchEntriesPath (query : String) (limit : Option Int) : String :=
  "/v1/entries?search=" ++ paramsToString (searchParams query limit) ++ "\x7d"

/-- The path the §6 contract table prescribes for list/search entries:
the encoded search and limit parameters behind one question mark. -/
def searchEntriesPathSpec (query : String) (limit : Option Int) : String :=
  "/v1/entries?" ++ paramsToString (searchParams query limit)

/-! ### Derived entry URL -/

/-- The path getMinifluxEntryUrl fetches to read the current status. -/
def entryStatusPath (id : Nat) : String :=
  "/v1/entries/" ++ toString id

/-- Embeds the template literal of getMinifluxEntryUrl applied to the
fetched status: the read status maps to the history segment, any other
status is used verbatim. -/
def getMinifluxEntryUrl (client : MinifluxClient) (id : Nat) (status : String) :
    String :=
  client.baseUrl ++ "/" ++ (if status = "read" then "history" else status) ++
    "/entry/" ++ toString id

/-- Whether a request outcome is the thrown-failure case. -/
def ReqResult.isFailure : ReqResult → Bool
  | .failure _ => true
  | _ => false

/-! ### Separator counting for the base-URL normalization claim -/

/-- Number of path separators a string ends with. -/
def trailingSlashes (s : String) : Nat :=
  (s.toList.reverse.takeWhile (fun c => c = '/')).length

/-- Number of path separators a string starts with. -/
def leadingSlashes (s : String) : Nat :=
  (s.toList.takeWhile (fun c => c = '/')).length

/-- Separators sitting between the base URL and the endpoint path in
their concatenation. -/
def junctionSeparators (base path : String) : Nat :=
  trailingSlashes base + leadingSlashes path

/-! ### Helper lemmas shared between claims -/

/-- Any status outside the ok range reaches the throwing branch. -/
theorem request_failure_of_not_ok (resp : HttpResponse) (isJson : Bool)
    (h : respOk resp = false) :
    request resp isJson = .failure (errorMessageOf resp.body) := by
  have h204 : resp.status ≠ 204 := by
    intro e
    simp [respOk, e] at h
  have h200 : resp.status ≠ 200 := by
    intro e
    simp [respOk, e] at h
  have h201 : resp.status ≠ 201 := by
    intro e
    simp [respOk, e] at h
  simp [request, h204, h200, h201, h]

/-! ### Claim theorems -/

/-- Claim C1 (amended): for every response to the request primitive,
status 204 yields a success with an empty result value; status 200 or
201 yields a success whose body is decoded as JSON by default or
returned as raw text when the caller declares the endpoint as non-JSON;
any status outside the 200 to 299 range yields a failure; and the
remaining 2xx statuses (202, 203, 205 to 299) yield a success with an
empty result value rather than a failure. -/
theorem request_status_classification (resp : HttpResponse) (isJson : Bool) :
    (resp.status = 204 → request resp isJson = .emptySuccess) ∧
    (resp.status = 200 ∨ resp.status = 201 →
      request resp isJson =
        (if isJson then .jsonSuccess resp.body else .textSuccess resp.body)) ∧
    (respOk resp = false →
      request resp isJson = .failure (errorMessageOf resp.body)) ∧
    (respOk resp = true → resp.status ≠ 200 → resp.status ≠ 201 →
      resp.status ≠ 204 → request resp isJson = .emptySuccess) := by
  refine ⟨?_, ?_, request_failure_of_not_ok resp isJson, ?_⟩
  · intro h
    simp [request, h]
  · intro h
    have h204 : resp.status ≠ 204 := by
      rcases h with h | h <;> simp [h]
    rcases h with h | h <;> simp [request, h204, h]
  · intro hok h200 h201 h204
    simp [request, h204, h200, h201, hok]

/-- Claim C1 witness: concrete responses exercising the 204, the
text-success and the failure branches of the classification. -/
theorem request_status_classification_witness :
    request ⟨204, "x"⟩ true = .emptySuccess ∧
    request ⟨200, "b"⟩ false = .textSuccess "b" ∧
    request ⟨500, "oops"⟩ true = .failure "oops" := by
  refine ⟨(request_status_classification ⟨204, "x"⟩ true).1 rfl, ?_, ?_⟩
  · have h := (request_status_classification ⟨200, "b"⟩ false).2.1 (Or.inl rfl)
    exact h.trans (by decide)
  · have h := (request_status_classification ⟨500, "oops"⟩ true).2.2.1 (by decide)
    exact h.trans (by decide)

/-- Claim C1 counterexample: a 202 response is not one of 200, 201, 204,
yet the request primitive classifies it as an empty success, not as a
failure. -/
theorem request_status_202_not_failure :
    request ⟨202, ""⟩ true = .emptySuccess ∧
    (request ⟨202, ""⟩ true).isFailure = false := by decide

/-- Claim C8: the repository contract table and the spec prescribe a
clean /v1/entries?(search and limit) path for searchEntries, but the
template literal prepends a second literal search= prefix before the
already encoded parameter list and appends a stray closing brace; the
spec itself records this as a defect. -/
theorem search_entries_path_malformed :
    searchEntriesPath "rust" none = "/v1/entries?search=search=rust\x7d" ∧
    searchEntriesPathSpec "rust" none = "/v1/entries?search=rust" ∧
    (searchEntriesPath "rust" none == searchEntriesPathSpec "rust" none) = false := by
  decide

/-- Claim C9: the fetch call spreads the caller options first and then
overwrites the headers field with the client's header list, so every
request is sent with exactly the construction-time header set while the
method and body of the per-call options survive. -/
theorem per_call_headers_discarded (c : MinifluxClient) (path : String)
    (options : RequestInit) :
    (fetchArgs c path options).2.headers = some c.headers ∧
    (fetchArgs c path options).2.method = options.method ∧
    (fetchArgs c path options).2.body = options.body ∧
    (fetchArgs c path options).1 = c.baseUrl ++ path :=
  ⟨rfl, rfl, rfl, rfl⟩

/-- Claim C10: with the authType field absent, construction only checks
the base URL, succeeds whatever the credential fields hold, and installs
exactly the three default headers, which contain neither an auth-token
header nor an authorization header. -/
theorem no_auth_type_no_auth_headers (cfg : MinifluxConfig)
    (ha : cfg.authType = none) (hb : cfg.baseURL.isEmpty = false) :
    mkClient cfg = .ok ⟨stripTrailingSlash cfg.baseURL, cfg.apiKey, cfg.username,
        cfg.password, defaultHeaders⟩ ∧
    (∀ v, ("X-Auth-Token", v) ∉ defaultHeaders) ∧
    (∀ v, ("Authorization", v) ∉ defaultHeaders) := by
  refine ⟨?_, ?_, ?_⟩
  · simp [mkClient, hb, ha]
  · intro v h
    simp [defaultHeaders] at h
  · intro v h
    simp [defaultHeaders] at h

/-- Claim C10 witness: a configuration carrying only a base URL
constructs successfully with the default header list. -/
theorem no_auth_type_no_auth_headers_witness :
    mkClient ⟨"http://h", none, none, none, none⟩ =
      .ok ⟨"http://h", none, none, none, defaultHeaders⟩ ∧
    ("X-Auth-Token", "k") ∉ defaultHeaders := by
  have h := no_auth_type_no_auth_headers ⟨"http://h", none, none, none, none⟩
    rfl (by decide)
  exact ⟨h.1.trans rfl, h.2.1 "k"⟩

/-- Claim C2: construction validates synchronously (mkClient is a pure
function, so no network activity is even expressible) in the fixed
source order: base URL presence first, then in key mode the key's
presence, in credential mode the username's presence and then the
password's presence, each miss producing its own distinct error message,
while a configuration with the mode-appropriate items present
constructs successfully. -/
theorem constructor_validation (cfg : MinifluxConfig) :
    (cfg.baseURL.isEmpty = true →
      mkClient cfg = .error "Miniflux base URL is required") ∧
    (cfg.baseURL.isEmpty = false → cfg.authType = some .api_key →
      present cfg.apiKey = false →
      mkClient cfg = .error "Miniflux API key is required") ∧
    (cfg.baseURL.isEmpty = false → cfg.authType = some .password →
      present cfg.username = false →
      mkClient cfg = .error "Miniflux username is required") ∧
    (cfg.baseURL.isEmpty = false → cfg.authType = some .password →
      present cfg.username = true → present cfg.password = false →
      mkClient cfg = .error "Miniflux password is required") ∧
    (cfg.baseURL.isEmpty = false →
      (cfg.authType = some .api_key → present cfg.apiKey = true) →
      (cfg.authType = some .password →
        present cfg.username = true ∧ present cfg.password = true) →
      (mkClient cfg).isOk = true) := by
  refine ⟨?_, ?_, ?_, ?_, ?_⟩
  · intro h
    simp [mkClient, h]
  · intro h1 h2 h3
    simp [mkClient, h1, h2, h3]
  · intro h1 h2 h3
    simp [mkClient, h1, h2, h3]
  · intro h1 h2 h3 h4
    simp [mkClient, h1, h2, h3, h4]
  · intro h1 hk hp
    unfold mkClient
    split_ifs with c1 c2 c3 c4 c5 c6
    · simp [h1] at c1
    · obtain ⟨ha, hb⟩ := c2
      rw [hk ha] at hb
      cases hb
    · obtain ⟨ha, hb⟩ := c3
      rw [(hp ha).1] at hb
      cases hb
    · obtain ⟨ha, hb⟩ := c4
      rw [(hp ha).2] at hb
      cases hb
    · rfl
    · rfl
    · rfl

/-- Claim C2 witness: each of the four misses at a concrete
configuration, plus one successful key-mode construction. -/
theorem constructor_validation_witness :
    mkClient ⟨"", none, none, none, some .api_key⟩ =
      .error "Miniflux base URL is required" ∧
    mkClient ⟨"http://h", none, none, none, some .api_key⟩ =
      .error "Miniflux API key is required" ∧
    mkClient ⟨"http://h", none, none, none, some .password⟩ =
      .error "Miniflux username is required" ∧
    mkClient ⟨"http://h", none, some "u", none, some .password⟩ =
      .error "Miniflux password is required" ∧
    (mkClient ⟨"http://h", some "k", none, none, some .api_key⟩).isOk = true := by
  refine ⟨(constructor_validation _).1 (by decide),
    (constructor_validation _).2.1 (by decide) rfl (by decide),
    (constructor_validation _).2.2.1 (by decide) rfl (by decide),
    (constructor_validation _).2.2.2.1 (by decide) rfl (by decide) (by decide),
    (constructor_validation _).2.2.2.2 (by decide) (by decide) (by decide)⟩

/-- Claim C6: the header list is part of the client record computed once
by the constructor, and the fetch arguments of every request reuse that
very list; in key mode the list carries the auth-token header with the
raw key, in credential mode the basic-authorization header with the
base64 of username:password. -/
theorem auth_header_fixed_at_construction (cfg : MinifluxConfig)
    (c : MinifluxClient) (h : mkClient cfg = .ok c) :
    (∀ path options, (fetchArgs c path options).2.headers = some c.headers) ∧
    (∀ k, cfg.authType = some .api_key → cfg.apiKey = some k →
      ("X-Auth-Token", k) ∈ c.headers) ∧
    (∀ u p, cfg.authType = some .password → cfg.username = some u →
      cfg.password = some p →
      ("Authorization", "Basic " ++ btoa (u ++ ":" ++ p)) ∈ c.headers) := by
  unfold mkClient at h
  split_ifs at h with c1 c2 c3 c4 c5 c6 <;> cases h
  · refine ⟨fun path options => rfl, ?_, ?_⟩
    · intro k ha hk
      rw [hk]
      simp [headersSet, defaultHeaders]
    · intro u p ha hu hp
      rw [c5.1] at ha
      simp at ha
  · refine ⟨fun path options => rfl, ?_, ?_⟩
    · intro k ha hk
      rw [c6.1] at ha
      simp at ha
    · intro u p ha hu hp
      rw [hu, hp]
      simp [headersSet, defaultHeaders]
  · refine ⟨fun path options => rfl, ?_, ?_⟩
    · intro k ha hk
      have hpres : present cfg.apiKey = false := by
        cases hx : present cfg.apiKey
        · rfl
        · exact absurd ⟨ha, hx⟩ c5
      exact absurd ⟨ha, hpres⟩ c2
    · intro u p ha hu hp
      have hu1 : present cfg.username = true := by
        cases hx : present cfg.username
        · exact absurd ⟨ha, hx⟩ c3
        · rfl
      have hp1 : present cfg.password = true := by
        cases hx : present cfg.password
        · exact absurd ⟨ha, hx⟩ c4
        · rfl
      exact absurd ⟨ha, hu1, hp1⟩ c6

/-- Claim C6 witness: a key-mode and a credential-mode construction with
the expected header in the resulting list, and the fetch arguments of a
request reusing the list unchanged. -/
theorem auth_header_fixed_at_construction_witness :
    (fetchArgs ⟨"http://h", some "k", none, none,
        defaultHeaders ++ [("X-Auth-Token", "k")]⟩ "/v1/feeds"
        ⟨none, none, none⟩).2.headers =
      some (defaultHeaders ++ [("X-Auth-Token", "k")]) ∧
    ("X-Auth-Token", "k") ∈
      (defaultHeaders ++ [("X-Auth-Token", "k")] : List (String × String)) ∧
    ("Authorization", "Basic " ++ btoa ("u" ++ ":" ++ "p")) ∈
      (defaultHeaders ++ [("Authorization", "Basic dTpw")] : List (String × String)) := by
  have h1 := auth_header_fixed_at_construction
    ⟨"http://h", some "k", none, none, some .api_key⟩
    ⟨"http://h", some "k", none, none, defaultHeaders ++ [("X-Auth-Token", "k")]⟩
    rfl
  have h2 := auth_header_fixed_at_construction
    ⟨"http://h", none, some "u", some "p", some .password⟩
    ⟨"http://h", none, some "u", some "p",
      defaultHeaders ++ [("Authorization", "Basic dTpw")]⟩
    rfl
  exact ⟨h1.1 "/v1/feeds" ⟨none, none, none⟩, h1.2.1 "k" rfl rfl,
    h2.2.2 "u" "p" rfl rfl rfl⟩

/-- Claim C3 (amended): every non-2xx response fails with the message
computed from the body: a JSON object body whose error-message field is
a non-empty string X gives exactly X; a body that does not parse as JSON
gives the raw text, or the fixed parse-failure placeholder when empty;
but a body that parses as a JSON object without the error-message field
gives the fixed message Unknown error, not the raw text. -/
theorem error_message_extraction (st : Nat) (body : String) (isJson : Bool) :
    (respOk ⟨st, body⟩ = false →
      request ⟨st, body⟩ isJson = .failure (errorMessageOf body)) ∧
    (∀ fields m, parseJson body = some (.jobj fields) →
      jlookup fields "error_message" = some (.jstr m) → m.isEmpty = false →
      errorMessageOf body = m) ∧
    (parseJson body = none → body.isEmpty = false → errorMessageOf body = body) ∧
    (parseJson body = none → body.isEmpty = true →
      errorMessageOf body = "Failed to parse error response") ∧
    (∀ fields, parseJson body = some (.jobj fields) →
      jlookup fields "error_message" = none →
      errorMessageOf body = "Unknown error") := by
  refine ⟨request_failure_of_not_ok ⟨st, body⟩ isJson, ?_, ?_, ?_, ?_⟩
  · intro fields m hp hl hm
    unfold errorMessageOf
    rw [hp]
    simp [errorMessageFrom, hl, jtruthy, jsToString, hm]
  · intro hp hb
    unfold errorMessageOf
    rw [hp]
    simp [errorMessageFrom, hb]
  · intro hp hb
    unfold errorMessageOf
    rw [hp]
    simp [errorMessageFrom, hb]
  · intro fields hp hl
    unfold errorMessageOf
    rw [hp]
    simp [errorMessageFrom, hl]

/-- Claim C3 witness: the three message sources at concrete bodies: a
JSON error_message, a non-JSON body, an empty body. -/
theorem error_message_extraction_witness :
    errorMessageOf "\x7b\"error_message\": \"X\"\x7d" = "X" ∧
    errorMessageOf "plain text" = "plain text" ∧
    errorMessageOf "" = "Failed to parse error response" ∧
    request ⟨500, "plain text"⟩ true = .failure "plain text" := by
  refine ⟨(error_message_extraction 500 _ true).2.1
      [("error_message", Json.jstr "X")] "X" rfl rfl rfl,
    (error_message_extraction 500 "plain text" true).2.2.1 rfl rfl, ?_, ?_⟩
  · exact (error_message_extraction 500 "" true).2.2.2.1 rfl rfl
  · have h := (error_message_extraction 500 "plain text" true).1 (by decide)
    exact h.trans (by decide)

/-- Claim C3 counterexample: a non-2xx response whose body is the JSON
object with only a foo field fails with the fixed message Unknown
error, not with the raw response text the claim asserts. -/
theorem error_message_json_without_field :
    request ⟨500, "\x7b\"foo\": \"bar\"\x7d"⟩ true = .failure "Unknown error" ∧
    ("Unknown error" == "\x7b\"foo\": \"bar\"\x7d") = false := by decide

/-- Claim C7: getMinifluxEntryUrl reads the entry's status through the
entry endpoint and maps a read status to the history segment while any
other status is used verbatim, producing base slash segment slash entry
slash id. -/
theorem entry_url_from_status (c : MinifluxClient) (id : Nat) (status : String) :
    entryStatusPath id = "/v1/entries/" ++ toString id ∧
    (status = "read" →
      getMinifluxEntryUrl c id status = c.baseUrl ++ "/history/entry/" ++ toString id) ∧
    (status ≠ "read" →
      getMinifluxEntryUrl c id status =
        c.baseUrl ++ "/" ++ status ++ "/entry/" ++ toString id) := by
  refine ⟨rfl, ?_, ?_⟩
  · intro h
    subst h
    unfold getMinifluxEntryUrl
    rw [if_pos rfl, String.append_assoc c.baseUrl, String.append_assoc c.baseUrl]
    rfl
  · intro h
    unfold getMinifluxEntryUrl
    rw [if_neg h]

/-- Claim C7 witness: the read and unread statuses at a concrete client
and entry id. -/
theorem entry_url_from_status_witness :
    getMinifluxEntryUrl ⟨"http://h", none, none, none, []⟩ 42 "read" =
      "http://h" ++ "/history/entry/" ++ toString 42 ∧
    getMinifluxEntryUrl ⟨"http://h", none, none, none, []⟩ 42 "unread" =
      "http://h" ++ "/" ++ "unread" ++ "/entry/" ++ toString 42 := by
  exact ⟨(entry_url_from_status ⟨"http://h", none, none, none, []⟩ 42 "read").2.1 rfl,
    (entry_url_from_status ⟨"http://h", none, none, none, []⟩ 42 "unread").2.2
      (by decide)⟩

/-- A string with at most one trailing separator has none left after the
constructor's normalization. -/
theorem trailingSlashes_stripTrailingSlash (s : String)
    (h : trailingSlashes s ≤ 1) :
    trailingSlashes (stripTrailingSlash s) = 0 := by
  unfold stripTrailingSlash
  split
  · next rest heq =>
      unfold trailingSlashes at h ⊢
      rw [heq] at h
      simp only [List.takeWhile_cons, decide_True, if_true, List.length_cons] at h
      have h0 : (rest.takeWhile (fun c => decide (c = '/'))).length = 0 := by omega
      have hrest : rest.takeWhile (fun c => decide (c = '/')) = [] :=
        List.eq_nil_of_length_eq_zero h0
      show ((String.mk rest.reverse).toList.reverse.takeWhile _).length = 0
      rw [show (String.mk rest.reverse).toList = rest.reverse from rfl,
        List.reverse_reverse, hrest]
      rfl
  · next hne =>
      unfold trailingSlashes
      cases hr : s.toList.reverse with
      | nil => simp
      | cons c rest =>
          have hc : ¬ c = '/' := by
            intro e
            subst e
            exact hne rest hr
          simp [List.takeWhile_cons, hc]

/-- Claim C5 (amended): construction strips exactly one trailing path
separator from the base URL, so when the configured base URL ends with
at most one trailing separator (in particular when it ends with exactly
one) every request URL joins base and endpoint path across exactly one
separator, the one the path starts with. -/
theorem base_url_single_separator (cfg : MinifluxConfig) (c : MinifluxClient)
    (h : mkClient cfg = .ok c) (hb : trailingSlashes cfg.baseURL ≤ 1)
    (path : String) (hp : leadingSlashes path = 1) :
    c.baseUrl = stripTrailingSlash cfg.baseURL ∧
    requestUrl c path = stripTrailingSlash cfg.baseURL ++ path ∧
    junctionSeparators c.baseUrl path = 1 := by
  have hbase : c.baseUrl = stripTrailingSlash cfg.baseURL := by
    unfold mkClient at h
    split_ifs at h <;> cases h
    all_goals rfl
  refine ⟨hbase, by rw [requestUrl, hbase], ?_⟩
  rw [junctionSeparators, hbase, trailingSlashes_stripTrailingSlash _ hb, hp]

/-- Claim C5 witness: a base URL with one trailing separator joined with
a concrete endpoint path across a single separator. -/
theorem base_url_single_separator_witness :
    requestUrl ⟨"http://h:8080", some "k", none, none,
        defaultHeaders ++ [("X-Auth-Token", "k")]⟩ "/v1/feeds" =
      stripTrailingSlash "http://h:8080/" ++ "/v1/feeds" ∧
    junctionSeparators "http://h:8080" "/v1/feeds" = 1 := by
  have h := base_url_single_separator
    ⟨"http://h:8080/", some "k", none, none, some .api_key⟩
    ⟨"http://h:8080", some "k", none, none, defaultHeaders ++ [("X-Auth-Token", "k")]⟩
    rfl (by decide) "/v1/feeds" (by decide)
  exact ⟨h.2.1, h.2.2⟩

/-- Claim C5 counterexample: a configured base URL ending with two
separators keeps one of them after stripping exactly one, so the request
URL joins base and path across two separators, not one. -/
theorem base_url_double_separator :
    (mkClient ⟨"http://h//", some "k", none, none, some .api_key⟩).toOption.map
        (fun c => (requestUrl c "/v1/feeds", junctionSeparators c.baseUrl "/v1/feeds"))
      = some ("http://h//v1/feeds", 2) := by decide

/-- Folding the parameter-building loop from any accumulator appends the
parameters built from the empty accumulator. -/
theorem buildParams_acc (fields : List (String × FieldVal)) :
    ∀ acc, fields.foldl (fun a kv => a ++ fieldParams kv) acc =
      acc ++ buildParams fields := by
  induction fields with
  | nil =>
      intro acc
      simp [buildParams]
  | cons e t ih =>
      intro acc
      rw [List.foldl_cons, ih]
      conv_rhs => rw [buildParams, List.foldl_cons, ih]
      simp [List.append_assoc]

/-- The loop contributes nothing for an empty entry list. -/
theorem buildParams_nil : buildParams [] = [] := rfl

/-- One loop step contributes the entry's parameters in front. -/
theorem buildParams_cons (e : String × FieldVal) (t : List (String × FieldVal)) :
    buildParams (e :: t) = fieldParams e ++ buildParams t := by
  rw [buildParams, List.foldl_cons, buildParams_acc]
  simp

/-- Every parameter pair one entry contributes carries the entry's key,
and only a non-absent entry contributes at all. -/
theorem mem_fieldParams {k v : String} {e : String × FieldVal}
    (h : (k, v) ∈ fieldParams e) : e.1 = k ∧ e.2 ≠ FieldVal.absent := by
  obtain ⟨k', fv⟩ := e
  cases fv with
  | absent => simp [fieldParams] at h
  | one s =>
      simp [fieldParams] at h
      simp [h.1]
  | many xs =>
      simp [fieldParams] at h
      obtain ⟨x, hx, hk, hv⟩ := h
      simp [hk]

/-- Every encoded parameter originates from a present field: absent
fields are omitted entirely. -/
theorem mem_buildParams {k v : String} {fields : List (String × FieldVal)}
    (h : (k, v) ∈ buildParams fields) :
    ∃ fv, (k, fv) ∈ fields ∧ fv ≠ FieldVal.absent := by
  induction fields with
  | nil => simp [buildParams] at h
  | cons e t ih =>
      rw [buildParams_cons, List.mem_append] at h
      rcases h with h | h
      · obtain ⟨hk, hne⟩ := mem_fieldParams h
        refine ⟨e.2, ?_, hne⟩
        rw [← hk]
        exact List.mem_cons_self _ _
      · obtain ⟨fv, hm, hne⟩ := ih h
        exact ⟨fv, List.mem_cons_of_mem _ hm, hne⟩

/-- Filtering an entry's parameters by the entry's own key keeps all of
them. -/
theorem filter_fieldParams_self (k : String) (fv : FieldVal) :
    (fieldParams (k, fv)).filter (fun p => p.1 == k) = fieldParams (k, fv) := by
  cases fv with
  | absent => rfl
  | one s => simp [fieldParams, List.filter]
  | many xs =>
      induction xs with
      | nil => rfl
      | cons x t ih =>
          simp [fieldParams, List.filter] at ih ⊢
          try exact ih

/-- Filtering an entry's parameters by a different key drops all of
them. -/
theorem filter_fieldParams_ne (k key : String) (fv : FieldVal)
    (h : (k == key) = false) :
    (fieldParams (k, fv)).filter (fun p => p.1 == key) = [] := by
  cases fv with
  | absent => rfl
  | one s => simp [fieldParams, List.filter, h]
  | many xs =>
      induction xs with
      | nil => rfl
      | cons x t ih =>
          simp [fieldParams, List.filter, h] at ih ⊢
          try exact ih

/-- The parameters carrying one key are exactly the parameters built
from the entries carrying that key. -/
theorem filter_key_buildParams (key : String) (fields : List (String × FieldVal)) :
    (buildParams fields).filter (fun p => p.1 == key) =
      buildParams (fields.filter (fun e => e.1 == key)) := by
  induction fields with
  | nil => rfl
  | cons e t ih =>
      obtain ⟨k, fv⟩ := e
      rw [buildParams_cons, List.filter_append, ih, List.filter_cons]
      cases hk : (k == key) with
      | false =>
          rw [filter_fieldParams_ne k key fv hk]
          simp [hk]
      | true =>
          have hkey : k = key := eq_of_beq hk
          subst hkey
          rw [filter_fieldParams_self]
          simp [buildParams_cons]

/-- Claim C4: the filter encoding omits absent fields entirely, encodes
the status sequence as repeated parameters sharing the status key in the
sequence's original order, stringifies the limit scalar in decimal, and
a filter with status read and unread plus limit 10 yields exactly the
two repeated status parameters followed by limit equals 10, while a
filter with no fields set (or no filter at all) leaves the path without
any question mark. -/
theorem filter_query_encoding :
    (∀ fields (k v : String), (k, v) ∈ buildParams fields →
      ∃ fv, (k, fv) ∈ fields ∧ fv ≠ FieldVal.absent) ∧
    (∀ f xs, f.status = some xs →
      (buildParams (fieldsOf f)).filter (fun p => p.1 == "status") =
        xs.map (fun x => ("status", x))) ∧
    (∀ f n, f.limit = some n →
      (buildParams (fieldsOf f)).filter (fun p => p.1 == "limit") =
        [("limit", toString n)]) ∧
    getEntriesPath (some { status := some ["read", "unread"], limit := some 10 }) =
      "/v1/entries?status=read&status=unread&limit=10" ∧
    getEntriesPath (some {}) = "/v1/entries" ∧
    getEntriesPath none = "/v1/entries" := by
  refine ⟨fun fields k v h => mem_buildParams h, ?_, ?_,
    by decide, by decide, by decide⟩
  · intro f xs hs
    rw [filter_key_buildParams]
    have hfil : (fieldsOf f).filter (fun e => e.1 == "status") =
        [("status", FieldVal.many (xs.map Scalar.str))] := by
      simp [fieldsOf, hs, List.filter]
    rw [hfil, buildParams_cons, buildParams_nil]
    simp [fieldParams, List.map_map]
    intro a ha
    rfl
  · intro f n hn
    rw [filter_key_buildParams]
    have hfil : (fieldsOf f).filter (fun e => e.1 == "limit") =
        [("limit", FieldVal.one (Scalar.num n))] := by
      simp [fieldsOf, hn, List.filter, optField]
    rw [hfil, buildParams_cons, buildParams_nil]
    simp [fieldParams, Scalar.toText]

/-- Claim C4 witness: the repeated status parameters and the limit
parameter of the concrete example filter. -/
theorem filter_query_encoding_witness :
    (buildParams (fieldsOf { status := some ["read", "unread"], limit := some 10 })).filter
        (fun p => p.1 == "status") = [("status", "read"), ("status", "unread")] ∧
    (buildParams (fieldsOf { status := some ["read", "unread"], limit := some 10 })).filter
        (fun p => p.1 == "limit") = [("limit", "10")] := by
  refine ⟨(filter_query_encoding.2.1 _ ["read", "unread"] rfl).trans (by decide),
    (filter_query_encoding.2.2.1 _ 10 rfl).trans (by decide)⟩

end Miniflux
